import Mathlib

/-!
# OTU Webring: the animated ring visualization (`src/js/ring.js`)

A shallow embedding of `class RingVisualization`.

Numbers.  JavaScript numbers are modelled by an arbitrary linearly ordered
field `α` with a floor function (`ℚ` is an executable instance, `ℝ` the ideal
one), so arithmetic is exact.  The `Math` functions the code calls
(`Math.sqrt`, `Math.cos`, `Math.sin`, `Math.PI`) are parameters of the
definitions that use them; the theorems that need the Euclidean meaning of a
distance instantiate them with `Real.sqrt`.

Randomness.  `Math.random()` is a stream `random : ℕ → α`; the `k`-th call made
by `createNodes` reads `random k`.

Division by zero.  The only division whose divisor is not a non-zero literal or
a positive loop bound is the one by `distance` in `update`.  Where JavaScript
would produce `NaN` there, the embedded step returns `none`.
-/

namespace RingVisualization

variable {α : Type}

/-- The three colours of `this.colors` that nodes are painted with. -/
inductive Color where
  | primary
  | secondary
  | accent
  deriving DecidableEq, Repr

/-- An orbital node: the object pushed by the first loop of `createNodes`. -/
structure Orbital (α : Type) where
  baseAngle : α
  orbit : Int
  radius : α
  size : α
  speed : α
  color : Color
  pulseOffset : α
  opacity : α
  deriving Repr

/-- A floating particle: the object pushed by the second loop of `createNodes`
(`isFloating: true`). -/
structure Floating (α : Type) where
  x : α
  y : α
  vx : α
  vy : α
  size : α
  color : Color
  opacity : α
  deriving Repr

/-- An element of `this.nodes`. -/
inductive Node (α : Type) where
  | orbital (n : Orbital α)
  | floating (n : Floating α)
  deriving Repr

/-- The field `node.isFloating` (absent, hence falsy, on orbital nodes). -/
def Node.isFloating : Node α → Bool
  | .orbital _ => false
  | .floating _ => true

/-- The mutable fields of a `RingVisualization` instance that the simulation reads
and writes. -/
structure Vis (α : Type) where
  nodes : List (Node α)
  mouseX : α
  mouseY : α
  time : α
  width : α
  height : α
  centerX : α
  centerY : α
  deriving Repr

section Code

variable [LinearOrderedField α] [FloorRing α]

/-- The assignments of `resize()` to `width`, `height`, `centerX`, `centerY`. -/
def resize (innerWidth innerHeight : α) (s : Vis α) : Vis α :=
  { s with
    width := innerWidth
    height := innerHeight
    centerX := innerWidth / 2
    centerY := innerHeight / 2 }

/-- The constant `nodeCount` of `createNodes`:
`Math.min(40, Math.floor((this.width * this.height) / 25000))`. -/
def nodeCount (width height : α) : Int :=
  min 40 ⌊(width * height) / 25000⌋

/-- The object pushed by iteration `i` of the first loop of `createNodes`.  The six
calls of `Math.random()` are the draws `6 * i, ..., 6 * i + 5`, in the order of the
object literal. -/
def orbitalNode (PI width height : α) (random : ℕ → α) (count : Int) (i : ℕ) :
    Orbital α :=
  let orbit : Int := 1 + ⌊(i : α) / 12⌋
  let baseRadius := min width height * (0.15 + (orbit : α) * 0.12)
  let angle := ((i : α) / (count : α)) * PI * 2 + ((orbit : α) * 0.5)
  { baseAngle := angle
    orbit := orbit
    radius := baseRadius + (random (6 * i) - 0.5) * 60
    size := random (6 * i + 1) * 2.5 + 1
    speed := (0.0002 + random (6 * i + 2) * 0.0003) * (if orbit % 2 = 0 then 1 else -1)
    color := if random (6 * i + 3) > 0.6 then Color.primary else Color.secondary
    pulseOffset := random (6 * i + 4) * PI * 2
    opacity := random (6 * i + 5) * 0.5 + 0.3 }

/-- The object pushed by iteration `i` of the second loop of `createNodes`; `base`
is the number of draws made before that loop. -/
def floatingParticle (width height : α) (random : ℕ → α) (base i : ℕ) : Floating α :=
  { x := random (base + 6 * i) * width
    y := random (base + 6 * i + 1) * height
    vx := (random (base + 6 * i + 2) - 0.5) * 0.3
    vy := (random (base + 6 * i + 3) - 0.5) * 0.3
    size := random (base + 6 * i + 4) * 1.5 + 0.5
    color := Color.accent
    opacity := random (base + 6 * i + 5) * 0.3 + 0.1 }

/-- The orbital nodes made by the first loop, `for (let i = 0; i < nodeCount; i++)`. -/
def orbitalNodesOf (PI width height : α) (random : ℕ → α) : List (Orbital α) :=
  let count := nodeCount width height
  (List.range count.toNat).map (orbitalNode PI width height random count)

/-- The particles made by the second loop, `for (let i = 0; i < 30; i++)`. -/
def floatingParticlesOf (width height : α) (random : ℕ → α) : List (Floating α) :=
  let count := nodeCount width height
  (List.range 30).map (floatingParticle width height random (6 * count.toNat))

/-- The fields set by the constructor before `init()` runs: no nodes, cursor at `(0, 0)`,
time 0.  The size fields, not yet assigned there, are given as 0; `resize` overwrites
them. -/
def initial : Vis α :=
  { nodes := [], mouseX := 0, mouseY := 0, time := 0, width := 0, height := 0,
    centerX := 0, centerY := 0 }

/-- The method `createNodes()`: the node list is emptied, then filled by the two
loops. -/
def createNodes (PI : α) (random : ℕ → α) (s : Vis α) : Vis α :=
  { s with
    nodes :=
      (orbitalNodesOf PI s.width s.height random).map Node.orbital ++
        (floatingParticlesOf s.width s.height random).map Node.floating }

/-- The method `init()` in a window of the given inner size: `resize()`, then
`createNodes()`. -/
def init (innerWidth innerHeight PI : α) (random : ℕ → α) : Vis α :=
  createNodes PI random (resize innerWidth innerHeight initial)

/-- The statements `node.x += node.vx; node.y += node.vy;`. -/
def integrate (node : Floating α) : Floating α :=
  { node with x := node.x + node.vx, y := node.y + node.vy }

/-- The four statements under `// Wrap around edges`, in order. -/
def wrapEdges (width height : α) (node : Floating α) : Floating α :=
  let node := if node.x < 0 then { node with x := width } else node
  let node := if node.x > width then { node with x := 0 } else node
  let node := if node.y < 0 then { node with y := height } else node
  let node := if node.y > height then { node with y := 0 } else node
  node

/-- The constant `distance` under `// Subtle mouse influence`. -/
def mouseDistance (sqrt : α → α) (mouseX mouseY : α) (node : Floating α) : α :=
  let dx := mouseX - node.x
  let dy := mouseY - node.y
  sqrt (dx * dx + dy * dy)

/-- The block under `// Subtle mouse influence`.  When the branch is taken with
`distance` equal to zero the quotients `dx / distance` and `dy / distance` are `0 / 0`
(`NaN` in JavaScript): the result is `none`. -/
def mouseInfluence (sqrt : α → α) (mouseX mouseY : α) (node : Floating α) :
    Option (Floating α) :=
  let dx := mouseX - node.x
  let dy := mouseY - node.y
  let distance := sqrt (dx * dx + dy * dy)
  if distance < 200 then
    if distance = 0 then none
    else
      let force := (200 - distance) / 200 * 0.01
      some { node with
        vx := node.vx - (dx / distance) * force
        vy := node.vy - (dy / distance) * force }
  else some node

/-- The statements `node.vx *= 0.99; node.vy *= 0.99;` under `// Damping`. -/
def damping (node : Floating α) : Floating α :=
  { node with vx := node.vx * 0.99, vy := node.vy * 0.99 }

/-- The body of the `forEach` callback of `update()` for a floating particle. -/
def updateFloating (sqrt : α → α) (width height mouseX mouseY : α) (node : Floating α) :
    Option (Floating α) :=
  (mouseInfluence sqrt mouseX mouseY (wrapEdges width height (integrate node))).map damping

/-- The `forEach` callback of `update()`: orbital nodes are left alone. -/
def updateNode (sqrt : α → α) (width height mouseX mouseY : α) : Node α → Option (Node α)
  | .orbital n => some (.orbital n)
  | .floating n => (updateFloating sqrt width height mouseX mouseY n).map Node.floating

/-- The `forEach` of `update()` over `this.nodes`. -/
def updateNodes (sqrt : α → α) (width height mouseX mouseY : α) :
    List (Node α) → Option (List (Node α))
  | [] => some []
  | node :: rest =>
    match updateNode sqrt width height mouseX mouseY node with
    | none => none
    | some node' =>
      match updateNodes sqrt width height mouseX mouseY rest with
      | none => none
      | some rest' => some (node' :: rest')

/-- The method `update()`. -/
def update (sqrt : α → α) (s : Vis α) : Option (Vis α) :=
  (updateNodes sqrt s.width s.height s.mouseX s.mouseY s.nodes).map
    fun nodes => { s with time := s.time + 0.016, nodes := nodes }

/-- Repeated `update` steps of one particle; step `k` (counted from 0) sees the stored
cursor position `mouse k`. -/
def updateSteps (sqrt : α → α) (width height : α) (mouse : ℕ → α × α) :
    ℕ → Floating α → Option (Floating α)
  | 0, node => some node
  | n + 1, node =>
    (updateSteps sqrt width height mouse n node).bind
      (updateFloating sqrt width height (mouse n).1 (mouse n).2)

/-- The magnitude `|velocity|` of a particle's velocity. -/
def speed (sqrt : α → α) (node : Floating α) : α :=
  sqrt (node.vx * node.vx + node.vy * node.vy)

/-- One step of a particle that the cursor does not influence: move, wrap, damp. -/
def driftStep (width height : α) (node : Floating α) : Floating α :=
  damping (wrapEdges width height (integrate node))

/-- One `ctx.stroke()` of `drawConnections`: the end points, `strokeStyle`,
`globalAlpha` and `lineWidth` in force, and the loop indices `i`, `j` at which it is
issued. -/
structure Line (α : Type) where
  i : ℕ
  j : ℕ
  x1 : α
  y1 : α
  x2 : α
  y2 : α
  strokeStyle : Color
  globalAlpha : α
  lineWidth : α
  deriving Repr

/-- The constant `orbitalNodes` of `drawConnections`,
`this.nodes.filter(n => !n.isFloating)`, as the list of the orbital records. -/
def orbitalNodes (nodes : List (Node α)) : List (Orbital α) :=
  nodes.filterMap fun n =>
    match n with
    | .orbital o => some o
    | .floating _ => none

/-- The screen position of an orbital node at simulated time `time`. -/
def position (cos sin : α → α) (centerX centerY time : α) (node : Orbital α) : α × α :=
  let angle := node.baseAngle + time * node.speed * 1000
  (centerX + cos angle * node.radius, centerY + sin angle * node.radius)

/-- The on-screen distance `distance` computed in the inner loop of
`drawConnections`. -/
def screenDistance (sqrt cos sin : α → α) (centerX centerY time : α)
    (node1 node2 : Orbital α) : α :=
  let p1 := position cos sin centerX centerY time node1
  let p2 := position cos sin centerX centerY time node2
  let dx := p1.1 - p2.1
  let dy := p1.2 - p2.2
  sqrt (dx * dx + dy * dy)

/-- The body of the inner loop of `drawConnections` for the pair `(i, j)`: the stroke
it issues, if any. -/
def connection (sqrt cos sin : α → α) (centerX centerY time : α)
    (i : ℕ) (node1 : Orbital α) (j : ℕ) (node2 : Orbital α) : Option (Line α) :=
  if |node1.orbit - node2.orbit| > 1 then none
  else
    let p1 := position cos sin centerX centerY time node1
    let p2 := position cos sin centerX centerY time node2
    let dx := p1.1 - p2.1
    let dy := p1.2 - p2.2
    let distance := sqrt (dx * dx + dy * dy)
    let maxDistance : α := 150
    if distance < maxDistance then
      let opacity := (1 - distance / maxDistance) * 0.15
      some
        { i := i, j := j, x1 := p1.1, y1 := p1.2, x2 := p2.1, y2 := p2.2
          strokeStyle := node1.color, globalAlpha := opacity, lineWidth := 0.5 }
    else none

/-- The inner loop of `drawConnections`, `for (let j = i + 1; j < orbitalNodes.length; j++)`,
for the outer index `i`: the strokes it issues, in order. -/
def connectionsFrom (sqrt cos sin : α → α) (centerX centerY time : α)
    (orbitalNodes : List (Orbital α)) (i : ℕ) : List (Line α) :=
  match orbitalNodes[i]? with
  | none => []
  | some node1 =>
    (List.range' (i + 1) (orbitalNodes.length - (i + 1))).filterMap fun j =>
      match orbitalNodes[j]? with
      | none => none
      | some node2 => connection sqrt cos sin centerX centerY time i node1 j node2

/-- The method `drawConnections()`: the strokes issued, in order. -/
def drawConnections (sqrt cos sin : α → α) (s : Vis α) : List (Line α) :=
  let orbitalNodes := orbitalNodes s.nodes
  (List.range orbitalNodes.length).flatMap
    (connectionsFrom sqrt cos sin s.centerX s.centerY s.time orbitalNodes)

end Code

/-! ## Concrete inputs used by the examples -/

/-- The random stream of the C7 counterexample: the first draw is 0.99, all others 0. -/
def jitterStream : ℕ → ℚ := fun k => if k = 0 then 0.99 else 0

/-- The particle of the edge-snap scenario: at `(0, 50)` with velocity `(-0.2, 0)`. -/
def edgeParticle [LinearOrderedField α] : Floating α :=
  { x := 0, y := 50, vx := -0.2, vy := 0, size := 1, color := Color.accent, opacity := 0.2 }

/-- A particle at rest at the origin. -/
def restParticle [LinearOrderedField α] : Floating α :=
  { x := 0, y := 0, vx := 0, vy := 0, size := 1, color := Color.accent, opacity := 0.2 }

/-- A particle in the middle of a 100 x 100 surface, moving with velocity `(0.1, -0.1)`. -/
def driftParticle [LinearOrderedField α] : Floating α :=
  { x := 50, y := 50, vx := 0.1, vy := -0.1, size := 1, color := Color.accent, opacity := 0.2 }

/-- A particle out of bounds: at `(-500, 700)` with velocity `(3, 4)`. -/
def strayParticle [LinearOrderedField α] : Floating α :=
  { x := -500, y := 700, vx := 3, vy := 4, size := 1, color := Color.accent, opacity := 0.2 }

/-- The 1000 x 325 surface of the C7 counterexample. -/
def narrowSurface : Vis ℚ :=
  { nodes := [], mouseX := 0, mouseY := 0, time := 0, width := 1000, height := 325,
    centerX := 500, centerY := 325 / 2 }

/-! ## Auxiliary facts -/

section Lemmas

theorem orbitalNodes_append_floating (l : List (Orbital α)) (f : List (Floating α)) :
    orbitalNodes (l.map Node.orbital ++ f.map Node.floating) = l := by
  unfold orbitalNodes
  rw [List.filterMap_append, List.filterMap_map, List.filterMap_map]
  have h1 : l.filterMap ((fun n : Node α =>
      match n with
      | .orbital o => some o
      | .floating _ => none) ∘ Node.orbital) = l := by
    induction l with
    | nil => rfl
    | cons a t ih => simp [ih]
  have h2 : f.filterMap ((fun n : Node α =>
      match n with
      | .orbital o => some o
      | .floating _ => none) ∘ Node.floating) = [] := by
    induction f with
    | nil => rfl
    | cons a t ih => simp [ih]
  rw [h1, h2, List.append_nil]

variable [LinearOrderedField α] [FloorRing α]

theorem floor_natCast_div_twelve (i : ℕ) : ⌊(i : α) / 12⌋ = ((i / 12 : ℕ) : Int) := by
  have h0 : (0 : α) ≤ (i : α) / 12 := by positivity
  rw [← Int.natCast_floor_eq_floor h0]
  have h12 : (12 : α) = ((12 : ℕ) : α) := by norm_num
  rw [h12, Nat.floor_div_eq_div]

theorem nodeCount_le (width height : α) : nodeCount width height ≤ 40 :=
  min_le_left _ _

theorem nodeCount_nonneg {width height : α} (hw : 0 ≤ width) (hh : 0 ≤ height) :
    0 ≤ nodeCount width height := by
  unfold nodeCount
  have h : (0 : α) ≤ width * height / 25000 := by positivity
  exact le_min (by norm_num) (Int.floor_nonneg.mpr h)

theorem orbitalNodesOf_length (PI width height : α) (random : ℕ → α) :
    (orbitalNodesOf PI width height random).length = (nodeCount width height).toNat := by
  simp [orbitalNodesOf]

theorem orbitalNode_orbit (PI width height : α) (random : ℕ → α) (count : Int) (i : ℕ) :
    (orbitalNode PI width height random count i).orbit = 1 + ((i / 12 : ℕ) : Int) := by
  simp [orbitalNode, floor_natCast_div_twelve]

theorem orbitalNodesOf_getElem? (PI width height : α) (random : ℕ → α) (i : ℕ)
    (n : Orbital α) (h : (orbitalNodesOf PI width height random)[i]? = some n) :
    i < (nodeCount width height).toNat ∧
      n = orbitalNode PI width height random (nodeCount width height) i := by
  simp only [orbitalNodesOf, List.getElem?_map, Option.map_eq_some'] at h
  obtain ⟨a, ha, rfl⟩ := h
  obtain ⟨hlt, hget⟩ := List.getElem?_eq_some.mp ha
  rw [List.length_range] at hlt
  rw [List.getElem_range] at hget
  exact ⟨hlt, by rw [hget]⟩

theorem nodeCount_1200_800 : nodeCount (1200 : α) 800 = 38 := by
  unfold nodeCount
  have h : ⌊(1200 : α) * 800 / 25000⌋ = 38 := by
    rw [Int.floor_eq_iff]
    constructor <;> norm_num
  rw [h]
  rfl

theorem countP_div_twelve_le (m c : ℕ) :
    (List.range c).countP (fun i => decide (i / 12 = m)) ≤ 12 := by
  rw [List.countP_eq_length_filter]
  have hnd : ((List.range c).filter (fun i => decide (i / 12 = m))).Nodup :=
    (List.nodup_range c).filter _
  rw [← List.toFinset_card_of_nodup hnd]
  have hsub : ((List.range c).filter (fun i => decide (i / 12 = m))).toFinset ⊆
      Finset.Ico (12 * m) (12 * m + 12) := by
    intro i hi
    simp only [List.mem_toFinset, List.mem_filter, decide_eq_true_eq] at hi
    rw [Finset.mem_Ico]
    omega
  calc _ ≤ (Finset.Ico (12 * m) (12 * m + 12)).card := Finset.card_le_card hsub
    _ = 12 := by simp

theorem orbitalNodes_createNodes (PI : α) (random : ℕ → α) (s : Vis α) :
    orbitalNodes (createNodes PI random s).nodes =
      orbitalNodesOf PI s.width s.height random :=
  orbitalNodes_append_floating _ _

end Lemmas

/-! ## The node population made by `createNodes` -/

section CreateNodes

variable [LinearOrderedField α] [FloorRing α]

/-- C1: on a surface with `width ≥ 0` and `height ≥ 0`, `createNodes` makes the node list
consist of exactly `min(40, floor(width * height / 25000))` orbital (non-floating) nodes
followed by exactly 30 floating particles; a 1200 x 800 surface gets 38 orbital nodes
and 68 nodes in total. -/
theorem createNodes_population (PI : α) (random : ℕ → α) (s : Vis α)
    (hw : 0 ≤ s.width) (hh : 0 ≤ s.height) :
    ∃ orb flo : List (Node α),
      (createNodes PI random s).nodes = orb ++ flo ∧
      (orb.length : Int) = min 40 ⌊s.width * s.height / 25000⌋ ∧
      (∀ n ∈ orb, n.isFloating = false) ∧
      flo.length = 30 ∧
      (∀ n ∈ flo, n.isFloating = true) ∧
      (s.width = 1200 → s.height = 800 →
        orb.length = 38 ∧ (createNodes PI random s).nodes.length = 68) := by
  refine ⟨(orbitalNodesOf PI s.width s.height random).map Node.orbital,
    (floatingParticlesOf s.width s.height random).map Node.floating, rfl, ?_, ?_, ?_, ?_, ?_⟩
  · rw [List.length_map, orbitalNodesOf_length, Int.toNat_of_nonneg (nodeCount_nonneg hw hh)]
    rfl
  · intro n hn
    obtain ⟨o, -, rfl⟩ := List.mem_map.mp hn
    rfl
  · simp [floatingParticlesOf]
  · intro n hn
    obtain ⟨o, -, rfl⟩ := List.mem_map.mp hn
    rfl
  · intro h1 h2
    have hc : nodeCount s.width s.height = 38 := by rw [h1, h2]; exact nodeCount_1200_800
    simp [createNodes, orbitalNodesOf_length, floatingParticlesOf, hc]

/-- A 1200 x 800 surface, through C1: 68 nodes whatever the previous node list and
the random draws were. -/
theorem createNodes_population_witness :
    (createNodes (3 : ℚ) (fun _ => 1 / 2)
      { nodes := [], mouseX := 0, mouseY := 0, time := 0, width := 1200, height := 800,
        centerX := 600, centerY := 400 }).nodes.length = 68 := by
  obtain ⟨orb, flo, -, -, -, -, -, h⟩ :=
    createNodes_population (3 : ℚ) (fun _ => 1 / 2)
      { nodes := [], mouseX := 0, mouseY := 0, time := 0, width := 1200, height := 800,
        centerX := 600, centerY := 400 } (by norm_num) (by norm_num)
  exact (h rfl rfl).2

/-- C5: the `i`-th orbital node made by `createNodes` has orbit `1 + floor(i / 12)`, which
lies in `{1, ..., ceil(orbitalNodeCount / 12)}`, and no orbit band receives more than 12
nodes. -/
theorem createNodes_orbit_bands (PI : α) (random : ℕ → α) (s : Vis α) :
    (∀ (i : ℕ) (n : Orbital α), (orbitalNodes (createNodes PI random s).nodes)[i]? = some n →
      n.orbit = 1 + ((i / 12 : ℕ) : Int) ∧ 1 ≤ n.orbit ∧
        n.orbit ≤ ⌈((orbitalNodes (createNodes PI random s).nodes).length : ℚ) / 12⌉) ∧
    ∀ k : Int,
      (orbitalNodes (createNodes PI random s).nodes).countP (fun n => decide (n.orbit = k))
        ≤ 12 := by
  rw [orbitalNodes_createNodes]
  constructor
  · intro i n h
    obtain ⟨hi, rfl⟩ := orbitalNodesOf_getElem? PI s.width s.height random i n h
    rw [orbitalNode_orbit, orbitalNodesOf_length]
    refine ⟨rfl, by omega, ?_⟩
    rw [Int.le_ceil_iff]
    have h1 : ((i / 12 : ℕ) : ℚ) ≤ (i : ℚ) / 12 := by
      have := Nat.cast_div_le (α := ℚ) (m := i) (n := 12)
      simpa using this
    have h2 : (i : ℚ) + 1 ≤ ((nodeCount s.width s.height).toNat : ℚ) := by exact_mod_cast hi
    simp only [Int.cast_add, Int.cast_one, Int.cast_natCast]
    linarith
  · intro k
    unfold orbitalNodesOf
    rw [List.countP_map]
    have hfun : ((fun n : Orbital α => decide (n.orbit = k)) ∘
        orbitalNode PI s.width s.height random (nodeCount s.width s.height)) =
        fun i => decide (i / 12 = (k - 1).toNat ∧ 1 ≤ k) := by
      funext i
      simp only [Function.comp, orbitalNode_orbit]
      congr 1
      apply propext
      omega
    rw [hfun]
    by_cases hk : 1 ≤ k
    · simpa [hk] using countP_div_twelve_le (k - 1).toNat (nodeCount s.width s.height).toNat
    · simp [hk]

/-- C7, as stated, fails: on a 1000 x 325 surface (13 orbital nodes) with the first random
draw 0.99 and all others 0 (every draw in `[0, 1)`), node 0 is in orbit 1 with radius
117.15 and node 12 is in orbit 2 with radius 96.75. -/
theorem radius_not_monotone_in_orbit :
    (∀ k, 0 ≤ jitterStream k ∧ jitterStream k < 1) ∧
    ∃ a ∈ orbitalNodes (createNodes 3 jitterStream narrowSurface).nodes,
      ∃ b ∈ orbitalNodes (createNodes 3 jitterStream narrowSurface).nodes,
        a.orbit < b.orbit ∧ ¬ a.radius ≤ b.radius := by
  have hc : nodeCount (1000 : ℚ) 325 = 13 := by
    unfold nodeCount
    have h : ⌊(1000 : ℚ) * 325 / 25000⌋ = 13 := by
      rw [Int.floor_eq_iff]
      constructor <;> norm_num
    rw [h]
    rfl
  constructor
  · intro k
    unfold jitterStream
    split_ifs <;> norm_num
  · rw [orbitalNodes_createNodes]
    refine ⟨orbitalNode 3 1000 325 jitterStream 13 0, ?_,
      orbitalNode 3 1000 325 jitterStream 13 12, ?_, ?_, ?_⟩
    · simp only [orbitalNodesOf, narrowSurface, hc]
      exact List.mem_map.mpr ⟨0, by simp, rfl⟩
    · simp only [orbitalNodesOf, narrowSurface, hc]
      exact List.mem_map.mpr ⟨12, by simp, rfl⟩
    · rw [orbitalNode_orbit, orbitalNode_orbit]
      decide
    · simp only [orbitalNode, floor_natCast_div_twelve, jitterStream]
      norm_num

/-- C7, amended: on a surface with `min(width, height) ≥ 500`, for every outcome of the
random draws (each in `[0, 1)`), two orbital nodes made by `createNodes` with
orbit a < orbit b have radius a ≤ radius b. -/
theorem radius_monotone_in_orbit (PI : α) (random : ℕ → α) (s : Vis α)
    (hsize : 500 ≤ min s.width s.height)
    (hrandom : ∀ k, 0 ≤ random k ∧ random k < 1)
    (a b : Orbital α)
    (ha : a ∈ orbitalNodes (createNodes PI random s).nodes)
    (hb : b ∈ orbitalNodes (createNodes PI random s).nodes)
    (hab : a.orbit < b.orbit) :
    a.radius ≤ b.radius := by
  rw [orbitalNodes_createNodes] at ha hb
  obtain ⟨i, -, rfl⟩ := List.mem_map.mp ha
  obtain ⟨j, -, rfl⟩ := List.mem_map.mp hb
  rw [orbitalNode_orbit, orbitalNode_orbit] at hab
  have hij : ((i / 12 : ℕ) : α) + 1 ≤ ((j / 12 : ℕ) : α) := by
    have : i / 12 + 1 ≤ j / 12 := by omega
    exact_mod_cast this
  have hi := hrandom (6 * i)
  have hj := hrandom (6 * j)
  simp only [orbitalNode, floor_natCast_div_twelve, Int.cast_add, Int.cast_one,
    Int.cast_natCast]
  nlinarith [hi.1, hi.2, hj.1, hj.2, hij, hsize]

/-- A 1000 x 600 surface (24 orbital nodes) with every draw 1/2, through the amended C7:
node 0 (orbit 1) and node 12 (orbit 2). -/
theorem radius_monotone_in_orbit_witness :
    (orbitalNode (3 : ℚ) 1000 600 (fun _ => 1 / 2) 24 0).radius ≤
      (orbitalNode (3 : ℚ) 1000 600 (fun _ => 1 / 2) 24 12).radius := by
  have hc : nodeCount (1000 : ℚ) 600 = 24 := by
    unfold nodeCount
    have h : ⌊(1000 : ℚ) * 600 / 25000⌋ = 24 := by
      rw [Int.floor_eq_iff]
      constructor <;> norm_num
    rw [h]
    rfl
  refine radius_monotone_in_orbit (3 : ℚ) (fun _ => 1 / 2)
    { nodes := [], mouseX := 0, mouseY := 0, time := 0, width := 1000, height := 600,
      centerX := 500, centerY := 300 } (by norm_num) (fun _ => by norm_num) _ _ ?_ ?_ ?_
  · rw [orbitalNodes_createNodes]
    simp only [orbitalNodesOf, hc]
    exact List.mem_map.mpr ⟨0, by simp, rfl⟩
  · rw [orbitalNodes_createNodes]
    simp only [orbitalNodesOf, hc]
    exact List.mem_map.mpr ⟨12, by simp, rfl⟩
  · rw [orbitalNode_orbit, orbitalNode_orbit]
    decide

end CreateNodes

/-! ## One `update` step of a floating particle -/

section Update

variable [LinearOrderedField α]

theorem wrapEdges_x (width height : α) (p : Floating α) :
    (wrapEdges width height p).x =
      if p.x < 0 then width else if width < p.x then 0 else p.x := by
  unfold wrapEdges
  by_cases h1 : p.x < 0 <;> by_cases h2 : width < p.x <;>
    by_cases h4 : p.y < 0 <;> by_cases h5 : height < p.y <;>
    simp [h1, h2, h4, h5, gt_iff_lt]

theorem wrapEdges_y (width height : α) (p : Floating α) :
    (wrapEdges width height p).y =
      if p.y < 0 then height else if height < p.y then 0 else p.y := by
  unfold wrapEdges
  by_cases h1 : p.x < 0 <;> by_cases h2 : width < p.x <;>
    by_cases h4 : p.y < 0 <;> by_cases h5 : height < p.y <;>
    simp [h1, h2, h4, h5, gt_iff_lt]

theorem wrapEdges_velocity (width height : α) (p : Floating α) :
    (wrapEdges width height p).vx = p.vx ∧ (wrapEdges width height p).vy = p.vy := by
  unfold wrapEdges
  by_cases h1 : p.x < 0 <;> by_cases h2 : width < p.x <;>
    by_cases h4 : p.y < 0 <;> by_cases h5 : height < p.y <;>
    simp [h1, h2, h4, h5, gt_iff_lt]

theorem wrapEdges_bounds (width height : α) (hw : 0 ≤ width) (hh : 0 ≤ height)
    (p : Floating α) :
    (0 ≤ (wrapEdges width height p).x ∧ (wrapEdges width height p).x ≤ width) ∧
      0 ≤ (wrapEdges width height p).y ∧ (wrapEdges width height p).y ≤ height := by
  rw [wrapEdges_x, wrapEdges_y]
  refine ⟨?_, ?_⟩
  · split_ifs with h1 h2
    · exact ⟨hw, le_refl _⟩
    · exact ⟨le_refl _, hw⟩
    · exact ⟨not_lt.mp h1, not_lt.mp h2⟩
  · split_ifs with h1 h2
    · exact ⟨hh, le_refl _⟩
    · exact ⟨le_refl _, hh⟩
    · exact ⟨not_lt.mp h1, not_lt.mp h2⟩

theorem mouseInfluence_position {sqrt : α → α} {mouseX mouseY : α} {p q : Floating α}
    (h : mouseInfluence sqrt mouseX mouseY p = some q) : q.x = p.x ∧ q.y = p.y := by
  unfold mouseInfluence at h
  simp only at h
  split_ifs at h with h1 h2
  · cases h
    exact ⟨rfl, rfl⟩
  · cases h
    exact ⟨rfl, rfl⟩

theorem updateFloating_position {sqrt : α → α} {width height mouseX mouseY : α}
    {p q : Floating α} (h : updateFloating sqrt width height mouseX mouseY p = some q) :
    q.x = (wrapEdges width height (integrate p)).x ∧
      q.y = (wrapEdges width height (integrate p)).y := by
  unfold updateFloating at h
  obtain ⟨r, hr, rfl⟩ := Option.map_eq_some'.mp h
  exact mouseInfluence_position (q := r) hr

theorem mouseInfluence_far {sqrt : α → α} {mouseX mouseY : α} {p : Floating α}
    (h : 200 ≤ mouseDistance sqrt mouseX mouseY p) :
    mouseInfluence sqrt mouseX mouseY p = some p := by
  unfold mouseDistance at h
  unfold mouseInfluence
  simp only
  rw [if_neg (not_lt.mpr h)]

theorem updateSteps_bounds {sqrt : α → α} {width height : α} (hw : 0 ≤ width)
    (hh : 0 ≤ height) (mouse : ℕ → α × α) (n : ℕ) (p q : Floating α)
    (h : updateSteps sqrt width height mouse (n + 1) p = some q) :
    (0 ≤ q.x ∧ q.x ≤ width) ∧ 0 ≤ q.y ∧ q.y ≤ height := by
  simp only [updateSteps] at h
  obtain ⟨r, -, hr⟩ := Option.bind_eq_some.mp h
  obtain ⟨hx, hy⟩ := updateFloating_position hr
  rw [hx, hy]
  exact wrapEdges_bounds width height hw hh _

theorem updateFloating_eq_none_iff (sqrt : α → α) (width height mouseX mouseY : α)
    (p : Floating α) :
    updateFloating sqrt width height mouseX mouseY p = none ↔
      mouseDistance sqrt mouseX mouseY (wrapEdges width height (integrate p)) = 0 := by
  unfold updateFloating mouseInfluence mouseDistance
  simp only [Option.map_eq_none']
  constructor
  · intro h
    split_ifs at h with h1 h2
    exact h2
  · intro h
    rw [h, if_pos (by norm_num), if_pos rfl]

theorem mouseDistance_far_of_dx {mouseX mouseY : ℝ} {p : Floating ℝ}
    (h : 200 ≤ mouseX - p.x) : 200 ≤ mouseDistance Real.sqrt mouseX mouseY p := by
  unfold mouseDistance
  apply Real.le_sqrt_of_sq_le
  nlinarith [mul_self_nonneg (mouseY - p.y)]

theorem updateFloating_far {sqrt : α → α} {width height mouseX mouseY : α} {p : Floating α}
    (h : 200 ≤ mouseDistance sqrt mouseX mouseY (wrapEdges width height (integrate p))) :
    updateFloating sqrt width height mouseX mouseY p =
      some (damping (wrapEdges width height (integrate p))) := by
  unfold updateFloating
  rw [mouseInfluence_far h]
  rfl

theorem updateFloating_edgeParticle :
    updateFloating Real.sqrt 100 100 400 50 edgeParticle =
      some (damping (wrapEdges 100 100 (integrate edgeParticle))) := by
  apply updateFloating_far
  apply mouseDistance_far_of_dx
  have h := (wrapEdges_bounds (100 : ℝ) 100 (by norm_num) (by norm_num)
    (integrate edgeParticle)).1.2
  linarith

theorem edgeParticle_wrapped_x (width height : α) :
    (damping (wrapEdges width height (integrate edgeParticle))).x = width := by
  show (wrapEdges width height (integrate edgeParticle)).x = width
  rw [wrapEdges_x]
  simp only [integrate, edgeParticle]
  rw [if_pos (by norm_num)]

/-- C8: on a surface with `width > 0` and `height > 0`, one `update` step of a floating
particle sets `x` to `width` when `x + vx < 0`, to `0` when `x + vx > width`, and to exactly
`x + vx` otherwise (likewise `y` with `height`); the wrap leaves the velocity untouched.
The particle at `(0, 50)` with velocity `(-0.2, 0)` ends the step with `x = width` and
`y = 50` (on a surface at least 50 high, so that `y = 50` is in range). -/
theorem update_edge_snap (sqrt : α → α) (width height mouseX mouseY : α) (p q : Floating α)
    (hw : 0 < width) (hh : 0 < height)
    (h : updateFloating sqrt width height mouseX mouseY p = some q) :
    ((p.x + p.vx < 0 → q.x = width) ∧ (p.x + p.vx > width → q.x = 0) ∧
      (¬ p.x + p.vx < 0 → ¬ p.x + p.vx > width → q.x = p.x + p.vx)) ∧
    ((p.y + p.vy < 0 → q.y = height) ∧ (p.y + p.vy > height → q.y = 0) ∧
      (¬ p.y + p.vy < 0 → ¬ p.y + p.vy > height → q.y = p.y + p.vy)) ∧
    ((wrapEdges width height (integrate p)).vx = (integrate p).vx ∧
      (wrapEdges width height (integrate p)).vy = (integrate p).vy) ∧
    (p.x = 0 → p.y = 50 → p.vx = -0.2 → p.vy = 0 → 50 ≤ height →
      q.x = width ∧ q.y = 50) := by
  obtain ⟨hx, hy⟩ := updateFloating_position h
  rw [wrapEdges_x] at hx
  rw [wrapEdges_y] at hy
  simp only [integrate] at hx hy
  refine ⟨⟨?_, ?_, ?_⟩, ⟨?_, ?_, ?_⟩, wrapEdges_velocity _ _ _, ?_⟩
  · intro h1
    rw [hx, if_pos h1]
  · intro h1
    rw [hx, if_neg (not_lt.mpr (le_trans hw.le h1.le)), if_pos h1]
  · intro h1 h2
    rw [hx, if_neg h1, if_neg h2]
  · intro h1
    rw [hy, if_pos h1]
  · intro h1
    rw [hy, if_neg (not_lt.mpr (le_trans hh.le h1.le)), if_pos h1]
  · intro h1 h2
    rw [hy, if_neg h1, if_neg h2]
  · intro h1 h2 h3 h4 h5
    rw [hx, hy, h1, h2, h3, h4]
    constructor
    · rw [if_pos (by norm_num)]
    · rw [if_neg (by norm_num), if_neg (by norm_num; exact h5)]
      norm_num

/-- The edge-snap scenario on a 100 x 100 surface with the cursor stored at `(400, 50)`,
through C8: the step ends at `(100, 50)`. -/
theorem update_edge_snap_witness :
    (damping (wrapEdges (100 : ℝ) 100 (integrate edgeParticle))).x = 100 ∧
      (damping (wrapEdges (100 : ℝ) 100 (integrate edgeParticle))).y = 50 :=
  (update_edge_snap Real.sqrt 100 100 400 50 edgeParticle _ (by norm_num) (by norm_num)
    updateFloating_edgeParticle).2.2.2 rfl rfl rfl rfl (by norm_num)

/-- C10: on a surface with `width ≥ 0` and `height ≥ 0`, whatever the cursor position and
the particle (also one that starts out of bounds), the position a single `update` step
leaves the particle at satisfies `0 ≤ x ≤ width` and `0 ≤ y ≤ height`.  The position is
the one after the move and the wrap; the rest of the step does not touch it. -/
theorem update_closed_bounds (sqrt : α → α) (width height mouseX mouseY : α) (p : Floating α)
    (hw : 0 ≤ width) (hh : 0 ≤ height) :
    ((0 ≤ (wrapEdges width height (integrate p)).x ∧
        (wrapEdges width height (integrate p)).x ≤ width) ∧
      0 ≤ (wrapEdges width height (integrate p)).y ∧
        (wrapEdges width height (integrate p)).y ≤ height) ∧
    ∀ q, updateFloating sqrt width height mouseX mouseY p = some q →
      (0 ≤ q.x ∧ q.x ≤ width) ∧ 0 ≤ q.y ∧ q.y ≤ height := by
  refine ⟨wrapEdges_bounds width height hw hh _, ?_⟩
  intro q h
  obtain ⟨hx, hy⟩ := updateFloating_position h
  rw [hx, hy]
  exact wrapEdges_bounds width height hw hh _

/-- A particle far outside a 100 x 100 surface, at `(-500, 700)` with velocity `(3, 4)`,
through C10: the move and the wrap put it inside the closed rectangle. -/
theorem update_closed_bounds_witness :
    (0 ≤ (wrapEdges (100 : ℝ) 100 (integrate strayParticle)).x ∧
        (wrapEdges (100 : ℝ) 100 (integrate strayParticle)).x ≤ 100) ∧
      0 ≤ (wrapEdges (100 : ℝ) 100 (integrate strayParticle)).y ∧
        (wrapEdges (100 : ℝ) 100 (integrate strayParticle)).y ≤ 100 :=
  (update_closed_bounds Real.sqrt 100 100 0 0 strayParticle (by norm_num) (by norm_num)).1

/-- C2, as stated, fails: on a 100 x 100 surface with the cursor stored at `(400, 50)`, the
particle at `(0, 50)` with velocity `(-0.2, 0)` is at `x = 100 = width` after one step, so
`x < width` does not hold. -/
theorem half_open_wrap_fails :
    ∃ q, updateSteps Real.sqrt 100 100 (fun _ => (400, 50)) 1 edgeParticle = some q ∧
      ¬ (q.x < 100) := by
  refine ⟨damping (wrapEdges 100 100 (integrate edgeParticle)), ?_, ?_⟩
  · simp only [updateSteps, Option.some_bind]
    exact updateFloating_edgeParticle
  · rw [edgeParticle_wrapped_x]
    exact lt_irrefl _

/-- C2, amended: on a surface with `width ≥ 0` and `height ≥ 0`, whatever the cursor
positions, after any positive number of `update` steps, none of which divided by a zero
cursor distance, the particle satisfies `0 ≤ x ≤ width` and `0 ≤ y ≤ height` (closed
bounds: a particle that crossed the left or top edge sits exactly at `width` or `height`). -/
theorem closed_wrap_invariant (sqrt : α → α) (width height : α) (mouse : ℕ → α × α) (n : ℕ)
    (p q : Floating α) (hw : 0 ≤ width) (hh : 0 ≤ height) (hn : 0 < n)
    (h : updateSteps sqrt width height mouse n p = some q) :
    (0 ≤ q.x ∧ q.x ≤ width) ∧ 0 ≤ q.y ∧ q.y ≤ height := by
  obtain ⟨m, rfl⟩ : ∃ m, n = m + 1 := ⟨n - 1, by omega⟩
  exact updateSteps_bounds hw hh mouse m p q h

/-- The edge-snap particle after one step on a 100 x 100 surface with the cursor stored at
`(400, 50)`, through the amended C2. -/
theorem closed_wrap_invariant_witness :
    (0 ≤ (damping (wrapEdges (100 : ℝ) 100 (integrate edgeParticle))).x ∧
      (damping (wrapEdges (100 : ℝ) 100 (integrate edgeParticle))).x ≤ 100) ∧
    0 ≤ (damping (wrapEdges (100 : ℝ) 100 (integrate edgeParticle))).y ∧
      (damping (wrapEdges (100 : ℝ) 100 (integrate edgeParticle))).y ≤ 100 :=
  closed_wrap_invariant Real.sqrt 100 100 (fun _ => (400, 50)) 1 edgeParticle _
    (by norm_num) (by norm_num) (by norm_num)
    (by
      simp only [updateSteps, Option.some_bind]
      exact updateFloating_edgeParticle)

theorem mouseInfluence_near {sqrt : α → α} {mouseX mouseY : α} {p : Floating α}
    (h0 : mouseDistance sqrt mouseX mouseY p ≠ 0)
    (h : mouseDistance sqrt mouseX mouseY p < 200) :
    mouseInfluence sqrt mouseX mouseY p =
      some { p with
        vx := p.vx - ((mouseX - p.x) / mouseDistance sqrt mouseX mouseY p) *
          ((200 - mouseDistance sqrt mouseX mouseY p) / 200 * 0.01)
        vy := p.vy - ((mouseY - p.y) / mouseDistance sqrt mouseX mouseY p) *
          ((200 - mouseDistance sqrt mouseX mouseY p) / 200 * 0.01) } := by
  unfold mouseDistance at h0 h
  unfold mouseInfluence mouseDistance
  simp only
  rw [if_pos h, if_neg h0]

theorem mouseDistance_mul_self (mouseX mouseY : ℝ) (p : Floating ℝ) :
    mouseDistance Real.sqrt mouseX mouseY p * mouseDistance Real.sqrt mouseX mouseY p =
      (mouseX - p.x) * (mouseX - p.x) + (mouseY - p.y) * (mouseY - p.y) := by
  unfold mouseDistance
  exact Real.mul_self_sqrt (add_nonneg (mul_self_nonneg _) (mul_self_nonneg _))

theorem influence_dot (dx dy d f : ℝ) (hd : 0 < d) (hdd : d * d = dx * dx + dy * dy) :
    (-(dx / d * f)) * dx + (-(dy / d * f)) * dy = -(f * d) := by
  have hne : d ≠ 0 := hd.ne'
  have h : (-(dx / d * f)) * dx + (-(dy / d * f)) * dy =
      -(f * ((dx * dx + dy * dy) / d)) := by ring
  rw [h, ← hdd, mul_div_assoc, div_self hne, mul_one]

theorem influence_norm (dx dy d f : ℝ) (hd : 0 < d) (hf : 0 ≤ f)
    (hdd : d * d = dx * dx + dy * dy) :
    Real.sqrt ((-(dx / d * f)) ^ 2 + (-(dy / d * f)) ^ 2) = f := by
  have hne : d ≠ 0 := hd.ne'
  have hne2 : d * d ≠ 0 := mul_ne_zero hne hne
  have h : (-(dx / d * f)) ^ 2 + (-(dy / d * f)) ^ 2 =
      f ^ 2 * ((dx * dx + dy * dy) / (d * d)) := by
    field_simp
    ring
  rw [h, ← hdd, div_self hne2, mul_one, Real.sqrt_sq hf]

theorem mouseDistance_rest_60_80 :
    mouseDistance Real.sqrt 60 80 (wrapEdges 100 100 (integrate restParticle)) = 100 := by
  have hx : (wrapEdges (100 : ℝ) 100 (integrate restParticle)).x = 0 := by
    rw [wrapEdges_x]
    simp [integrate, restParticle]
  have hy : (wrapEdges (100 : ℝ) 100 (integrate restParticle)).y = 0 := by
    rw [wrapEdges_y]
    simp [integrate, restParticle]
  unfold mouseDistance
  simp only [hx, hy]
  have h : ((60 : ℝ) - 0) * (60 - 0) + (80 - 0) * (80 - 0) = 100 ^ 2 := by norm_num
  rw [h, Real.sqrt_sq (by norm_num)]

/-- C3, as stated, fails: for the particle at rest at the origin of a 100 x 100 surface and
the cursor stored at `(60, 80)` the distance is 100, and the velocity change has a negative
dot product with `(mouseX - x, mouseY - y)`: it points away from the cursor. -/
theorem mouse_influence_not_attraction :
    0 < mouseDistance Real.sqrt 60 80 (wrapEdges 100 100 (integrate restParticle)) ∧
    mouseDistance Real.sqrt 60 80 (wrapEdges 100 100 (integrate restParticle)) < 200 ∧
    ∃ q, mouseInfluence Real.sqrt 60 80 (wrapEdges 100 100 (integrate restParticle)) = some q ∧
      ¬ 0 < (q.vx - (wrapEdges 100 100 (integrate restParticle)).vx) *
            (60 - (wrapEdges 100 100 (integrate restParticle)).x) +
          (q.vy - (wrapEdges 100 100 (integrate restParticle)).vy) *
            (80 - (wrapEdges 100 100 (integrate restParticle)).y) := by
  have hd := mouseDistance_rest_60_80
  refine ⟨by rw [hd]; norm_num, by rw [hd]; norm_num, _,
    mouseInfluence_near (by rw [hd]; norm_num) (by rw [hd]; norm_num), ?_⟩
  simp only [sub_sub_cancel_left]
  rw [influence_dot _ _ _ _ (by rw [hd]; norm_num) (mouseDistance_mul_self _ _ _), hd]
  norm_num

/-- C3, amended: for a floating particle whose distance `d` to the stored cursor position
(measured after the move and the wrap) satisfies `0 < d < 200`, the velocity change that
`update` applies before damping is a repulsion: it has magnitude `(200 - d) / 200 * 0.01`
and points from the cursor toward the particle, i.e. its dot product with
`(mouseX - x, mouseY - y)` is negative (it equals `-(200 - d) / 200 * 0.01 * d`). -/
theorem mouse_influence_repels (width height mouseX mouseY : ℝ) (p : Floating ℝ)
    (hpos : 0 < mouseDistance Real.sqrt mouseX mouseY (wrapEdges width height (integrate p)))
    (hlt : mouseDistance Real.sqrt mouseX mouseY (wrapEdges width height (integrate p)) < 200) :
    ∃ q, mouseInfluence Real.sqrt mouseX mouseY (wrapEdges width height (integrate p)) = some q ∧
      updateFloating Real.sqrt width height mouseX mouseY p = some (damping q) ∧
      Real.sqrt ((q.vx - (wrapEdges width height (integrate p)).vx) ^ 2 +
          (q.vy - (wrapEdges width height (integrate p)).vy) ^ 2) =
        (200 - mouseDistance Real.sqrt mouseX mouseY (wrapEdges width height (integrate p)))
          / 200 * 0.01 ∧
      (q.vx - (wrapEdges width height (integrate p)).vx) *
            (mouseX - (wrapEdges width height (integrate p)).x) +
          (q.vy - (wrapEdges width height (integrate p)).vy) *
            (mouseY - (wrapEdges width height (integrate p)).y) < 0 := by
  have hq := mouseInfluence_near hpos.ne' hlt
  refine ⟨_, hq, ?_, ?_, ?_⟩
  · unfold updateFloating
    rw [hq]
    rfl
  · simp only [sub_sub_cancel_left]
    apply influence_norm _ _ _ _ hpos _ (mouseDistance_mul_self _ _ _)
    have : 0 < 200 - mouseDistance Real.sqrt mouseX mouseY
        (wrapEdges width height (integrate p)) := by linarith
    positivity
  · simp only [sub_sub_cancel_left]
    rw [influence_dot _ _ _ _ hpos (mouseDistance_mul_self _ _ _)]
    have : 0 < 200 - mouseDistance Real.sqrt mouseX mouseY
        (wrapEdges width height (integrate p)) := by linarith
    have : 0 < (200 - mouseDistance Real.sqrt mouseX mouseY
        (wrapEdges width height (integrate p))) / 200 * 0.01 := by positivity
    nlinarith

/-- The particle at rest at the origin of a 100 x 100 surface with the cursor stored at
`(60, 80)` (distance 100), through the amended C3. -/
theorem mouse_influence_repels_witness :
    ∃ q, mouseInfluence Real.sqrt 60 80 (wrapEdges 100 100 (integrate restParticle)) = some q ∧
      updateFloating Real.sqrt 100 100 60 80 restParticle = some (damping q) ∧
      Real.sqrt ((q.vx - (wrapEdges 100 100 (integrate restParticle)).vx) ^ 2 +
          (q.vy - (wrapEdges 100 100 (integrate restParticle)).vy) ^ 2) =
        (200 - mouseDistance Real.sqrt 60 80 (wrapEdges 100 100 (integrate restParticle)))
          / 200 * 0.01 ∧
      (q.vx - (wrapEdges 100 100 (integrate restParticle)).vx) *
            (60 - (wrapEdges 100 100 (integrate restParticle)).x) +
          (q.vy - (wrapEdges 100 100 (integrate restParticle)).vy) *
            (80 - (wrapEdges 100 100 (integrate restParticle)).y) < 0 :=
  mouse_influence_repels 100 100 60 80 restParticle
    (by rw [mouseDistance_rest_60_80]; norm_num) (by rw [mouseDistance_rest_60_80]; norm_num)

theorem driftStep_velocity (width height : α) (p : Floating α) :
    (driftStep width height p).vx = p.vx * 0.99 ∧ (driftStep width height p).vy = p.vy * 0.99 := by
  obtain ⟨h1, h2⟩ := wrapEdges_velocity width height (integrate p)
  unfold driftStep damping
  simp only [h1, h2]
  exact ⟨rfl, rfl⟩

theorem iterate_driftStep_velocity (width height : α) (p : Floating α) (n : ℕ) :
    ((driftStep width height)^[n] p).vx = 0.99 ^ n * p.vx ∧
      ((driftStep width height)^[n] p).vy = 0.99 ^ n * p.vy := by
  induction n with
  | zero => simp
  | succ n ih =>
    rw [Function.iterate_succ_apply']
    obtain ⟨h1, h2⟩ := driftStep_velocity width height ((driftStep width height)^[n] p)
    rw [h1, h2, ih.1, ih.2]
    constructor <;> ring

theorem speed_scale (c : ℝ) (hc : 0 ≤ c) (p q : Floating ℝ) (hx : q.vx = c * p.vx)
    (hy : q.vy = c * p.vy) : speed Real.sqrt q = c * speed Real.sqrt p := by
  unfold speed
  rw [hx, hy]
  have h : c * p.vx * (c * p.vx) + c * p.vy * (c * p.vy) =
      c ^ 2 * (p.vx * p.vx + p.vy * p.vy) := by ring
  rw [h, Real.sqrt_mul (sq_nonneg c), Real.sqrt_sq hc]

theorem speed_nonneg (p : Floating ℝ) : 0 ≤ speed Real.sqrt p :=
  Real.sqrt_nonneg _

/-- C6: a floating particle at distance at least 200 from the stored cursor position
(measured after the move and the wrap) has both `vx` and `vy` multiplied by exactly 0.99
by one `update` step; if that holds at every step, then after `n` steps the velocity is
`0.99 ^ n` times the initial one, and its magnitude is non-increasing in `n` and tends
to 0. -/
theorem damping_decay (width height : ℝ) (mouse : ℕ → ℝ × ℝ) (p : Floating ℝ) :
    (∀ (mouseX mouseY : ℝ) (q : Floating ℝ),
      200 ≤ mouseDistance Real.sqrt mouseX mouseY (wrapEdges width height (integrate q)) →
      ∃ r, updateFloating Real.sqrt width height mouseX mouseY q = some r ∧
        r.vx = q.vx * 0.99 ∧ r.vy = q.vy * 0.99) ∧
    ((∀ n q, updateSteps Real.sqrt width height mouse n p = some q →
        200 ≤ mouseDistance Real.sqrt (mouse n).1 (mouse n).2
          (wrapEdges width height (integrate q))) →
      ∃ traj : ℕ → Floating ℝ,
        (∀ n, updateSteps Real.sqrt width height mouse n p = some (traj n)) ∧
        (∀ n, (traj n).vx = 0.99 ^ n * p.vx ∧ (traj n).vy = 0.99 ^ n * p.vy) ∧
        (∀ n, speed Real.sqrt (traj (n + 1)) ≤ speed Real.sqrt (traj n)) ∧
        Filter.Tendsto (fun n => speed Real.sqrt (traj n)) Filter.atTop (nhds 0)) := by
  constructor
  · intro mouseX mouseY q h
    exact ⟨_, updateFloating_far h, driftStep_velocity width height q⟩
  · intro hfar
    have hsteps : ∀ n, updateSteps Real.sqrt width height mouse n p =
        some ((driftStep width height)^[n] p) := by
      intro n
      induction n with
      | zero => rfl
      | succ n ih =>
        rw [Function.iterate_succ_apply']
        simp only [updateSteps, ih, Option.some_bind]
        exact updateFloating_far (hfar n _ ih)
    have hspeed : ∀ n, speed Real.sqrt ((driftStep width height)^[n] p) =
        0.99 ^ n * speed Real.sqrt p := by
      intro n
      obtain ⟨h1, h2⟩ := iterate_driftStep_velocity width height p n
      exact speed_scale _ (by positivity) _ _ h1 h2
    refine ⟨fun n => (driftStep width height)^[n] p, hsteps,
      iterate_driftStep_velocity width height p, ?_, ?_⟩
    · intro n
      simp only [hspeed, pow_succ]
      have h0 : 0 ≤ (0.99 : ℝ) ^ n * speed Real.sqrt p :=
        mul_nonneg (by positivity) (speed_nonneg p)
      nlinarith
    · simp only [hspeed]
      have h := tendsto_pow_atTop_nhds_zero_of_lt_one (r := (0.99 : ℝ)) (by norm_num)
        (by norm_num)
      simpa using h.mul_const (speed Real.sqrt p)

/-- A particle on a 100 x 100 surface with the cursor stored at `(400, 50)` for ever (so
always at distance at least 300), through C6: its velocity after `n` steps is `0.99 ^ n`
times the initial `(0.1, -0.1)` and its speed tends to 0. -/
theorem damping_decay_witness :
    ∃ traj : ℕ → Floating ℝ,
      (∀ n, updateSteps Real.sqrt 100 100 (fun _ => (400, 50)) n driftParticle =
        some (traj n)) ∧
      (∀ n, (traj n).vx = 0.99 ^ n * 0.1 ∧ (traj n).vy = 0.99 ^ n * (-0.1)) ∧
      (∀ n, speed Real.sqrt (traj (n + 1)) ≤ speed Real.sqrt (traj n)) ∧
      Filter.Tendsto (fun n => speed Real.sqrt (traj n)) Filter.atTop (nhds 0) :=
  (damping_decay 100 100 (fun _ => (400, 50)) driftParticle).2 (by
    intro n q _
    apply mouseDistance_far_of_dx
    have h := (wrapEdges_bounds (100 : ℝ) 100 (by norm_num)
      (by norm_num) (integrate q)).1.2
    show (200 : ℝ) ≤ 400 - (wrapEdges 100 100 (integrate q)).x
    linarith)

theorem updateNodes_eq_none_of_mem {sqrt : α → α} {width height mouseX mouseY : α}
    {nodes : List (Node α)} {node : Node α} (hmem : node ∈ nodes)
    (h : updateNode sqrt width height mouseX mouseY node = none) :
    updateNodes sqrt width height mouseX mouseY nodes = none := by
  induction nodes with
  | nil => cases hmem
  | cons a t ih =>
    rcases List.mem_cons.mp hmem with rfl | ht
    · simp only [updateNodes, h]
    · simp only [updateNodes, ih ht]
      cases updateNode sqrt width height mouseX mouseY a <;> rfl

theorem updateFloating_zero_surface (f : Floating ℝ) :
    updateFloating Real.sqrt 0 0 0 0 f = none := by
  rw [updateFloating_eq_none_iff]
  obtain ⟨⟨hx1, hx2⟩, hy1, hy2⟩ :=
    wrapEdges_bounds (0 : ℝ) 0 (le_refl _) (le_refl _) (integrate f)
  have hx : (wrapEdges (0 : ℝ) 0 (integrate f)).x = 0 := le_antisymm hx2 hx1
  have hy : (wrapEdges (0 : ℝ) 0 (integrate f)).y = 0 := le_antisymm hy2 hy1
  unfold mouseDistance
  simp [hx, hy]

/-- C9 fails on the code: in a window of inner size 0 x 0 with the cursor still at its
initial `(0, 0)`, the node list made by `init()` holds 30 floating particles, each of them
is wrapped to `(0, 0)` by the first `update` step, its cursor distance is 0, the branch
`distance < 200` is taken and `dx / distance` is `0 / 0`: the step is not fault-free,
whatever the random draws. -/
theorem update_zero_surface_divides_by_zero (PI : ℝ) (random : ℕ → ℝ) :
    (init 0 0 PI random).nodes.length = 30 ∧
    (∀ node ∈ (init 0 0 PI random).nodes, ∃ f, node = Node.floating f ∧
      mouseDistance Real.sqrt (init 0 0 PI random).mouseX (init 0 0 PI random).mouseY
        (wrapEdges (init 0 0 PI random).width (init 0 0 PI random).height (integrate f)) = 0 ∧
      updateFloating Real.sqrt (init 0 0 PI random).width (init 0 0 PI random).height
        (init 0 0 PI random).mouseX (init 0 0 PI random).mouseY f = none) ∧
    update Real.sqrt (init 0 0 PI random) = none := by
  have hc : nodeCount (0 : ℝ) 0 = 0 := by simp [nodeCount]
  have hnodes : (init 0 0 PI random).nodes =
      (floatingParticlesOf (0 : ℝ) 0 random).map Node.floating := by
    simp [init, createNodes, resize, initial, orbitalNodesOf, hc]
  have hfields : (init 0 0 PI random).width = 0 ∧ (init 0 0 PI random).height = 0 ∧
      (init 0 0 PI random).mouseX = 0 ∧ (init 0 0 PI random).mouseY = 0 :=
    ⟨rfl, rfl, rfl, rfl⟩
  obtain ⟨h1, h2, h3, h4⟩ := hfields
  rw [h1, h2, h3, h4]
  refine ⟨?_, ?_, ?_⟩
  · rw [hnodes]
    simp [floatingParticlesOf]
  · intro node hnode
    rw [hnodes] at hnode
    obtain ⟨f, -, rfl⟩ := List.mem_map.mp hnode
    exact ⟨f, rfl, (updateFloating_eq_none_iff _ _ _ _ _ _).mp (updateFloating_zero_surface f),
      updateFloating_zero_surface f⟩
  · unfold update
    rw [h1, h2, h3, h4, Option.map_eq_none']
    have hmem : Node.floating (floatingParticle (0 : ℝ) 0 random (6 * (nodeCount (0 : ℝ) 0).toNat) 0)
        ∈ (init 0 0 PI random).nodes := by
      rw [hnodes]
      exact List.mem_map.mpr ⟨_, List.mem_map.mpr ⟨0, by simp, rfl⟩, rfl⟩
    apply updateNodes_eq_none_of_mem hmem
    simp only [updateNode, updateFloating_zero_surface, Option.map_none']

end Update

/-! ## The strokes of `drawConnections` -/

section DrawConnections

theorem orbitalNodes_map_orbital (nodes : List (Node α)) :
    (orbitalNodes nodes).map Node.orbital = nodes.filter (fun n => !n.isFloating) := by
  unfold orbitalNodes
  induction nodes with
  | nil => rfl
  | cons a t ih =>
    cases a with
    | orbital o => simpa [List.filterMap_cons, List.filter_cons, Node.isFloating] using ih
    | floating f => simpa [List.filterMap_cons, List.filter_cons, Node.isFloating] using ih

variable [LinearOrderedField α]

theorem connection_eq_some_iff (sqrt cos sin : α → α) (centerX centerY time : α)
    (i j : ℕ) (node1 node2 : Orbital α) (l : Line α) :
    connection sqrt cos sin centerX centerY time i node1 j node2 = some l ↔
      |node1.orbit - node2.orbit| ≤ 1 ∧
      screenDistance sqrt cos sin centerX centerY time node1 node2 < 150 ∧
      l = { i := i, j := j
            x1 := (position cos sin centerX centerY time node1).1
            y1 := (position cos sin centerX centerY time node1).2
            x2 := (position cos sin centerX centerY time node2).1
            y2 := (position cos sin centerX centerY time node2).2
            strokeStyle := node1.color
            globalAlpha :=
              (1 - screenDistance sqrt cos sin centerX centerY time node1 node2 / 150) * 0.15
            lineWidth := 0.5 } := by
  unfold connection screenDistance
  simp only
  by_cases h1 : |node1.orbit - node2.orbit| > 1
  · rw [if_pos h1]
    constructor
    · intro h
      cases h
    · rintro ⟨h, -⟩
      exact absurd h (not_le.mpr h1)
  · rw [if_neg h1]
    split_ifs with h2
    · constructor
      · intro h
        exact ⟨not_lt.mp h1, h2, (Option.some.inj h).symm⟩
      · rintro ⟨-, -, rfl⟩
        rfl
    · constructor
      · intro h
        cases h
      · rintro ⟨-, h, -⟩
        exact absurd h h2

theorem mem_connectionsFrom_iff (sqrt cos sin : α → α) (centerX centerY time : α)
    (nodes : List (Orbital α)) (i : ℕ) (l : Line α) :
    l ∈ connectionsFrom sqrt cos sin centerX centerY time nodes i ↔
      ∃ j node1 node2, i < j ∧ nodes[i]? = some node1 ∧ nodes[j]? = some node2 ∧
        connection sqrt cos sin centerX centerY time i node1 j node2 = some l := by
  unfold connectionsFrom
  cases h1 : nodes[i]? with
  | none => simp
  | some node1 =>
    simp only [List.mem_filterMap, List.mem_range'_1]
    constructor
    · rintro ⟨j, ⟨hj1, hj2⟩, hl⟩
      have hj : j < nodes.length := by omega
      rw [List.getElem?_eq_getElem hj] at hl
      exact ⟨j, node1, _, by omega, rfl, List.getElem?_eq_getElem hj, hl⟩
    · rintro ⟨j, n1, node2, hij, hn1, h2, hl⟩
      obtain ⟨hj, -⟩ := List.getElem?_eq_some.mp h2
      cases hn1
      refine ⟨j, ⟨by omega, by omega⟩, ?_⟩
      rw [h2]
      exact hl

theorem connectionsFrom_indices {sqrt cos sin : α → α} {centerX centerY time : α}
    {nodes : List (Orbital α)} {i : ℕ} {l : Line α}
    (h : l ∈ connectionsFrom sqrt cos sin centerX centerY time nodes i) : l.i = i := by
  obtain ⟨j, node1, node2, -, -, -, hl⟩ := (mem_connectionsFrom_iff _ _ _ _ _ _ _ _ _).mp h
  obtain ⟨-, -, rfl⟩ := (connection_eq_some_iff _ _ _ _ _ _ _ _ _ _ _).mp hl
  rfl

theorem connectionsFrom_pairwise (sqrt cos sin : α → α) (centerX centerY time : α)
    (nodes : List (Orbital α)) (i : ℕ) :
    (connectionsFrom sqrt cos sin centerX centerY time nodes i).Pairwise
      (fun a b => (a.i, a.j) ≠ (b.i, b.j)) := by
  unfold connectionsFrom
  cases h1 : nodes[i]? with
  | none => exact List.Pairwise.nil
  | some node1 =>
    refine List.Pairwise.filterMap _ ?_ (List.pairwise_lt_range' (i + 1) _)
    intro j j' hjj b hb b' hb'
    have hbj : b.j = j := by
      cases h2 : nodes[j]? with
      | none => rw [h2] at hb; cases hb
      | some node2 =>
        rw [h2] at hb
        obtain ⟨-, -, rfl⟩ := (connection_eq_some_iff _ _ _ _ _ _ _ _ _ _ _).mp hb
        rfl
    have hbj' : b'.j = j' := by
      cases h2 : nodes[j']? with
      | none => rw [h2] at hb'; cases hb'
      | some node2 =>
        rw [h2] at hb'
        obtain ⟨-, -, rfl⟩ := (connection_eq_some_iff _ _ _ _ _ _ _ _ _ _ _).mp hb'
        rfl
    intro heq
    have := congrArg Prod.snd heq
    simp only [hbj, hbj'] at this
    omega

theorem mem_drawConnections_iff (sqrt cos sin : α → α) (s : Vis α) (l : Line α) :
    l ∈ drawConnections sqrt cos sin s ↔
      ∃ i j node1 node2, i < j ∧ (orbitalNodes s.nodes)[i]? = some node1 ∧
        (orbitalNodes s.nodes)[j]? = some node2 ∧
        connection sqrt cos sin s.centerX s.centerY s.time i node1 j node2 = some l := by
  unfold drawConnections
  simp only [List.mem_flatMap, List.mem_range, mem_connectionsFrom_iff]
  constructor
  · rintro ⟨i, -, j, node1, node2, h⟩
    exact ⟨i, j, node1, node2, h⟩
  · rintro ⟨i, j, node1, node2, hij, h1, h2, hl⟩
    exact ⟨i, (List.getElem?_eq_some.mp h1).1, j, node1, node2, hij, h1, h2, hl⟩

theorem drawConnections_pairs_nodup (sqrt cos sin : α → α) (s : Vis α) :
    ((drawConnections sqrt cos sin s).map (fun l => (l.i, l.j))).Nodup := by
  unfold List.Nodup
  rw [List.pairwise_map]
  unfold drawConnections
  rw [List.pairwise_flatMap]
  refine ⟨fun i _ => connectionsFrom_pairwise _ _ _ _ _ _ _ i, ?_⟩
  refine (List.pairwise_lt_range _).imp ?_
  intro i1 i2 h12 x hx y hy heq
  have := congrArg Prod.fst heq
  simp only [connectionsFrom_indices hx, connectionsFrom_indices hy] at this
  omega

/-- C4: `drawConnections` strokes a line for a pair of nodes exactly when both are orbital
(taken from `nodes.filter(n => !n.isFloating)`), their orbit indices differ by at most 1 and
their on-screen distance at the current time is below 150; the line runs between the two
screen positions with opacity `(1 - distance / 150) * 0.15`, the colour of the earlier node
and width 0.5; each pair `i < j` is stroked at most once; nodes whose orbit indices differ by
2 or more are never connected. -/
theorem drawConnections_lines (sqrt cos sin : α → α) (s : Vis α) :
    (orbitalNodes s.nodes).map Node.orbital = s.nodes.filter (fun n => !n.isFloating) ∧
    (∀ l : Line α, l ∈ drawConnections sqrt cos sin s ↔
      ∃ node1 node2, l.i < l.j ∧ (orbitalNodes s.nodes)[l.i]? = some node1 ∧
        (orbitalNodes s.nodes)[l.j]? = some node2 ∧
        |node1.orbit - node2.orbit| ≤ 1 ∧
        screenDistance sqrt cos sin s.centerX s.centerY s.time node1 node2 < 150 ∧
        (l.x1, l.y1) = position cos sin s.centerX s.centerY s.time node1 ∧
        (l.x2, l.y2) = position cos sin s.centerX s.centerY s.time node2 ∧
        l.strokeStyle = node1.color ∧
        l.globalAlpha =
          (1 - screenDistance sqrt cos sin s.centerX s.centerY s.time node1 node2 / 150) * 0.15 ∧
        l.lineWidth = 0.5) ∧
    ((drawConnections sqrt cos sin s).map (fun l => (l.i, l.j))).Nodup ∧
    (∀ l ∈ drawConnections sqrt cos sin s, ∀ node1 node2,
      (orbitalNodes s.nodes)[l.i]? = some node1 → (orbitalNodes s.nodes)[l.j]? = some node2 →
      ¬ 2 ≤ |node1.orbit - node2.orbit|) := by
  refine ⟨orbitalNodes_map_orbital _, ?_, drawConnections_pairs_nodup _ _ _ _, ?_⟩
  · intro l
    rw [mem_drawConnections_iff]
    constructor
    · rintro ⟨i, j, node1, node2, hij, h1, h2, hl⟩
      obtain ⟨ho, hd, rfl⟩ := (connection_eq_some_iff _ _ _ _ _ _ _ _ _ _ _).mp hl
      exact ⟨node1, node2, hij, h1, h2, ho, hd, rfl, rfl, rfl, rfl, rfl⟩
    · rintro ⟨node1, node2, hij, h1, h2, ho, hd, hp1, hp2, hc, ha, hw⟩
      refine ⟨l.i, l.j, node1, node2, hij, h1, h2, ?_⟩
      rw [connection_eq_some_iff]
      refine ⟨ho, hd, ?_⟩
      cases l
      simp only [Prod.ext_iff] at hp1 hp2
      simp only at hc ha hw
      simp only [Line.mk.injEq]
      exact ⟨trivial, trivial, hp1.1, hp1.2, hp2.1, hp2.2, hc, ha, hw⟩
  · intro l hl node1 node2 h1 h2
    obtain ⟨i, j, n1, n2, -, hn1, hn2, hc⟩ := (mem_drawConnections_iff _ _ _ _ _).mp hl
    obtain ⟨ho, -, rfl⟩ := (connection_eq_some_iff _ _ _ _ _ _ _ _ _ _ _).mp hc
    simp only at h1 h2
    rw [hn1] at h1
    rw [hn2] at h2
    cases h1
    cases h2
    omega

end DrawConnections

end RingVisualization
